import Mathlib

/-!
Verification development for the floof operation runtime.

Each Rust function under scrutiny is shallow-embedded as an executable Lean
definition; bytes are modelled as natural numbers, machine integers do not
overflow in any of the embedded code paths, and fallible code returns Option
or Except. Definitions carry a comment pointing at the source location they
embed.
-/

/-- Outcome of an operation (src/op/mod.rs, enum Outcome). -/
inductive Outcome
  | Success
  | Failure
  | Cancelled
deriving DecidableEq

/-- Embeds Outcome::is_success (src/op/mod.rs lines 73-75): true only for Success. -/
def Outcome.is_success : Outcome → Bool
  | Outcome.Success => true
  | _ => false

/-- Embeds Outcome::to_exit_code (src/op/mod.rs lines 77-83). -/
def Outcome.to_exit_code : Outcome → Int
  | Outcome.Success => 0
  | Outcome.Failure => 1
  | Outcome.Cancelled => 2

/-! ## HTML injection (src/http.rs) -/

/-- Bytes of the closing body tag, b"</body>" (src/http.rs line 227). -/
def bodyTag : List Nat := [60, 47, 98, 111, 100, 121, 62]

/-- Bytes of the comment opener, b"<!--" (src/http.rs line 229). -/
def commentOpen : List Nat := [60, 33, 45, 45]

/-- Bytes of the comment closer, b"-->" (src/http.rs line 231). -/
def commentClose : List Nat := [45, 45, 62]

/-- ASCII bytes of a Lean string; used to build the injected script bytes. -/
def bytes (s : String) : List Nat := s.toList.map Char.toNat

/-- Modelled from the spec: the file inject.js referenced by reload_script
(src/http.rs line 216, include_str) is not under src. Per spec section 4.8 it
is a small JavaScript snippet, served verbatim with a port placeholder
replaced by the control port, which opens a WebSocket to the control endpoint
and calls location.reload when the socket closes and reopens. -/
def inject_js (port : Nat) : String :=
  "var floofSocket = new WebSocket(\"ws://127.0.0.1:" ++ toString port ++ "/\");\n"
    ++ "floofSocket.onclose = function() \x7b location.reload(); \x7d;\n"

/-- Embeds reload_script (src/http.rs lines 215-220) at the byte level: the
format string "<script>\n" ++ js ++ "</script>" with the port placeholder in
the JS already replaced by the control port. -/
def reload_script (port : Nat) : List Nat :=
  bytes "<script>\n" ++ bytes (inject_js port) ++ bytes "</script>"

/-- One iteration of the scanning loop in inject_into (src/http.rs lines
225-234): acc carries (body_close_idx, inside_comment), i is the loop index. -/
def scanStep (input : List Nat) (acc : Option Nat × Bool) (i : Nat) : Option Nat × Bool :=
  let rest := input.drop i
  if !acc.2 && List.isPrefixOf bodyTag rest then (some i, acc.2)
  else if !acc.2 && List.isPrefixOf commentOpen rest then (acc.1, true)
  else if acc.2 && List.isPrefixOf commentClose rest then (acc.1, false)
  else acc

/-- The scanning loop of inject_into after processing positions 0..n-1. -/
def scanAcc (input : List Nat) (n : Nat) : Option Nat × Bool :=
  (List.range n).foldl (scanStep input) (none, false)

/-- The body_close_idx computed by the loop in inject_into (src/http.rs lines
223-234). -/
def scan (input : List Nat) : Option Nat :=
  (scanAcc input input.length).1

/-- Embeds inject_into (src/http.rs lines 222-243): insert the reload script
at the found index, or at the very end if none was found. -/
def inject_into (input : List Nat) (port : Nat) : List Nat :=
  let idx := (scan input).getD input.length
  input.take idx ++ reload_script port ++ input.drop idx

/-! Declarative description of the insertion point, written from the claim:
the comment toggle and the last closing body tag outside comments. -/

/-- Whether the non-nested comment toggle is switched on just before scanning
position i: it turns on at an occurrence of the comment opener outside a
comment and off at an occurrence of the comment closer inside one. -/
def commentState (input : List Nat) : Nat → Bool
  | 0 => false
  | i + 1 =>
    let s := commentState input i
    let rest := input.drop i
    if !s && List.isPrefixOf commentOpen rest then true
    else if s && List.isPrefixOf commentClose rest then false
    else s

/-- Whether the closing body tag occurs at position i of the input. -/
def bodyAt (input : List Nat) (i : Nat) : Bool :=
  List.isPrefixOf bodyTag (input.drop i)

/-- Whether position i starts a closing body tag lying outside HTML comments. -/
def outsideBodyAt (input : List Nat) (i : Nat) : Bool :=
  !commentState input i && bodyAt input i

/-- The last occurrence of the closing body tag outside HTML comments. -/
def lastBodyClose (input : List Nat) : Option Nat :=
  ((List.range input.length).filter (outsideBodyAt input)).getLast?

lemma scanAcc_succ (input : List Nat) (n : Nat) :
    scanAcc input (n + 1) = scanStep input (scanAcc input n) n := by
  unfold scanAcc
  rw [List.range_succ, List.foldl_append]
  rfl

lemma body_not_open (l : List Nat) (h : List.isPrefixOf bodyTag l = true) :
    List.isPrefixOf commentOpen l = false := by
  match l with
  | [] => simp [bodyTag, List.isPrefixOf] at h
  | [a] => simp [bodyTag, List.isPrefixOf] at h
  | a :: b :: t =>
    simp only [bodyTag, List.isPrefixOf, Bool.and_eq_true, beq_iff_eq] at h
    obtain ⟨ha, hb, -⟩ := h
    subst ha; subst hb
    simp [commentOpen, List.isPrefixOf]

/-- The fold of inject_into computes exactly the last outside-comment body tag
position together with the comment toggle state. -/
lemma scanAcc_spec (input : List Nat) (n : Nat) :
    scanAcc input n =
      (((List.range n).filter (outsideBodyAt input)).getLast?, commentState input n) := by
  induction n with
  | zero => rfl
  | succ n ih =>
    rw [scanAcc_succ, ih, List.range_succ, List.filter_append]
    show scanStep input _ n = _
    unfold scanStep
    cases hs : commentState input n with
    | false =>
      cases hb : bodyAt input n with
      | false =>
        have houts : outsideBodyAt input n = false := by
          simp [outsideBodyAt, hs, hb]
        cases ho : List.isPrefixOf commentOpen (input.drop n) with
        | false =>
          simp only [bodyAt] at hb
          simp [hb, ho, houts, commentState, hs]
        | true =>
          simp only [bodyAt] at hb
          simp [hb, ho, houts, commentState, hs]
      | true =>
        have houts : outsideBodyAt input n = true := by
          simp [outsideBodyAt, hs, hb]
        have hb' := hb
        simp only [bodyAt] at hb'
        have hcs : commentState input (n + 1) = false := by
          simp [commentState, hs, body_not_open _ hb']
        simp [hb', houts, hcs]
    | true =>
      have houts : outsideBodyAt input n = false := by
        simp [outsideBodyAt, hs]
      cases hc : List.isPrefixOf commentClose (input.drop n) with
      | false =>
        simp [houts, hc, commentState, hs]
      | true =>
        simp [houts, hc, commentState, hs]

lemma scan_eq_lastBodyClose (input : List Nat) :
    scan input = lastBodyClose input := by
  unfold scan lastBodyClose
  rw [scanAcc_spec]

lemma inject_into_eq (input : List Nat) (port : Nat) :
    inject_into input port =
      match lastBodyClose input with
      | some i => input.take i ++ reload_script port ++ input.drop i
      | none => input ++ reload_script port := by
  unfold inject_into
  rw [scan_eq_lastBodyClose]
  cases h : lastBodyClose input with
  | none => simp
  | some i => simp

/-- C3. HTML injection inserts the reload script immediately before the last
occurrence of the closing body tag that lies outside HTML comments, where
comments are tracked by a non-nested toggle between the comment opener and
closer; if no such occurrence exists, the script is appended at the very end
of the body. -/
theorem inject_into_before_last_body_close (input : List Nat) (port : Nat) :
    inject_into input port =
      match lastBodyClose input with
      | some i => input.take i ++ reload_script port ++ input.drop i
      | none => input ++ reload_script port :=
  inject_into_eq input port

lemma lastBodyClose_lt_length (input : List Nat) (i : Nat)
    (h : lastBodyClose input = some i) : i < input.length := by
  unfold lastBodyClose at h
  have hx : i ∈ ((List.range input.length).filter (outsideBodyAt input)).getLast? :=
    Option.mem_def.mpr h
  obtain ⟨hne, heq⟩ := List.mem_getLast?_eq_getLast hx
  have hmem := heq ▸ List.getLast_mem hne
  rw [List.mem_filter] at hmem
  exact List.mem_range.mp hmem.1

lemma reload_script_ne_nil (port : Nat) : reload_script port ≠ [] := by
  unfold reload_script
  refine List.append_ne_nil_of_left_ne_nil ?_ _
  refine List.append_ne_nil_of_left_ne_nil ?_ _
  decide

lemma inject_into_length (input : List Nat) (port : Nat) :
    (inject_into input port).length = input.length + (reload_script port).length := by
  rw [inject_into_eq]
  cases h : lastBodyClose input with
  | none => simp [List.length_append]
  | some i =>
    have hi := lastBodyClose_lt_length input i h
    simp only [List.length_append, List.length_take, List.length_drop]
    omega

/-- Concrete HTML body consisting of a single closing body tag. -/
def exHtml : List Nat := bytes "</body>"

set_option maxRecDepth 20000 in
/-- C4 counterexample. On the input consisting of just a closing body tag, the
second injection inserts before the very same tag (it sits at the script's
length in the once-injected body, i.e. it is the original tag at index 0
shifted by the inserted script), yet the doubly injected body differs from the
once injected body: the script is duplicated, so injection is not idempotent. -/
theorem inject_into_not_idempotent_on_exHtml :
    inject_into (inject_into exHtml 8031) 8031 ≠ inject_into exHtml 8031 ∧
    lastBodyClose (inject_into exHtml 8031) = some (reload_script 8031).length ∧
    lastBodyClose exHtml = some 0 := by decide

/-- C4 amended. Repeated injection duplicates the reload script rather than
leaving the body unchanged: a second application always grows the body by
another copy of the script, so for every input (in particular when the second
call inserts before the same closing body tag) the doubly injected body
differs from the once injected body. -/
theorem inject_into_never_idempotent (input : List Nat) (port : Nat) :
    inject_into (inject_into input port) port ≠ inject_into input port := by
  intro h
  have hlen := congrArg List.length h
  rw [inject_into_length, inject_into_length] at hlen
  have hs : (reload_script port).length ≠ 0 := by
    intro h0
    exact reload_script_ne_nil port (List.length_eq_zero.mp h0)
  omega

/-! ## Context stack and path resolution (src/context.rs) -/

/-- One component of a filesystem path, the fragment of the Rust
std::path::Component semantics that join_workdir exercises: the current
directory component (a single dot) or a normal component. -/
inductive PathComp
  | curDir
  | normal (s : String)
deriving DecidableEq

/-- A filesystem path: an absoluteness flag (whether the path begins with the
root directory) together with its remaining components. In the Rust component
view an absolute path begins with a RootDir component, which is represented
here by the flag. -/
structure RPath where
  abs : Bool
  comps : List PathComp
deriving DecidableEq

/-- Embeds Path::is_absolute. -/
def RPath.is_absolute (p : RPath) : Bool := p.abs

/-- Embeds Path::starts_with(".") as used in join_workdir (src/context.rs line
127): component-wise comparison, so it holds exactly when the path is relative
and its first component is the current-directory component (an absolute path
begins with RootDir and can never match). -/
def RPath.startsWithDot (p : RPath) : Bool :=
  !p.abs &&
    (match p.comps.head? with
     | some PathComp.curDir => true
     | _ => false)

/-- Embeds strip_prefix(".") on a relative path starting with the
current-directory component (src/context.rs line 128): drops that component. -/
def RPath.stripDot (p : RPath) : RPath := ⟨false, p.comps.tail⟩

/-- Embeds PathBuf::join: an absolute argument replaces the base, otherwise
the argument's components are appended to the base. -/
def RPath.join (base p : RPath) : RPath :=
  if p.abs then p else ⟨base.abs, base.comps ++ p.comps⟩

/-- A frame of the context stack (src/context.rs, struct Frame), restricted to
the type-keyed variables the verified operations read: the WorkDir variable
(src/op/workdir.rs, struct WorkDir) and the Reloader variable (src/op/http.rs,
struct Reloader, identified here by the channel it wraps). -/
structure Frame where
  workdir : Option RPath
  reloader : Option Nat
deriving DecidableEq

/-- A context's frame chain listed from the top frame down to the root frame,
as produced by Context::frames (src/context.rs lines 94-102). -/
def FrameStack := List Frame

/-- Embeds Context::get_closest_var for WorkDir (src/context.rs lines
108-110): the first frame, from the top, holding the variable. -/
def get_closest_workdir (frames : List Frame) : Option RPath :=
  frames.findSome? Frame.workdir

/-- Embeds Context::root_frame().get_var for WorkDir (src/context.rs lines
104-106 and 131): the last frame of the chain is the root frame. -/
def root_workdir (frames : List Frame) : Option RPath :=
  frames.getLast?.bind Frame.workdir

/-- Embeds Context::join_workdir (src/context.rs lines 123-135). The two
expect panics (no closest WorkDir, no root WorkDir) are modelled by returning
none. -/
def join_workdir (frames : List Frame) (p : RPath) : Option RPath :=
  if p.is_absolute then some p
  else if p.startsWithDot then
    (get_closest_workdir frames).map (fun w => w.join p.stripDot)
  else
    (root_workdir frames).map (fun w => w.join p)

/-- Whether the frame's WorkDir variable, if set, is an absolute path. Every
WorkDir inserted by the program is absolute: the root one is absolutized
against the current directory in Context::new (src/context.rs lines 77-91)
and SetWorkDir inserts a join_workdir result (src/op/workdir.rs lines 30-45). -/
def Frame.workdirAbs (f : Frame) : Bool :=
  match f.workdir with
  | some w => w.abs
  | none => true

lemma findSome?_workdir_isSome (frames : List Frame) (f : Frame) (w : RPath)
    (hmem : f ∈ frames) (hw : f.workdir = some w) :
    ∃ v, get_closest_workdir frames = some v := by
  induction frames with
  | nil => cases hmem
  | cons g rest ih =>
    unfold get_closest_workdir
    cases hg : g.workdir with
    | some v => exact ⟨v, by simp [List.findSome?, hg]⟩
    | none =>
      rcases List.mem_cons.mp hmem with hgf | hrest
      · subst hgf; rw [hg] at hw; cases hw
      · obtain ⟨v, hv⟩ := ih hrest
        exact ⟨v, by simpa [List.findSome?, hg] using hv⟩

lemma closest_workdir_abs (frames : List Frame) (w : RPath)
    (habs : frames.all Frame.workdirAbs = true)
    (h : get_closest_workdir frames = some w) : w.abs = true := by
  obtain ⟨f, hf, hfw⟩ := List.exists_of_findSome?_eq_some h
  have := (List.all_eq_true.mp habs) f hf
  unfold Frame.workdirAbs at this
  rw [hfw] at this
  exact this

lemma root_workdir_abs (frames : List Frame) (r : RPath)
    (habs : frames.all Frame.workdirAbs = true)
    (h : root_workdir frames = some r) : r.abs = true := by
  unfold root_workdir at h
  cases hl : frames.getLast? with
  | none => rw [hl] at h; cases h
  | some f =>
    rw [hl] at h
    replace h : f.workdir = some r := h
    have hmem : f ∈ frames := by
      have hx : f ∈ frames.getLast? := Option.mem_def.mpr hl
      obtain ⟨hne, heq⟩ := List.mem_getLast?_eq_getLast hx
      exact heq ▸ List.getLast_mem hne
    have := (List.all_eq_true.mp habs) f hmem
    unfold Frame.workdirAbs at this
    rw [h] at this
    exact this

lemma root_mem_frames (frames : List Frame) (f : Frame)
    (hl : frames.getLast? = some f) : f ∈ frames := by
  have hx : f ∈ frames.getLast? := Option.mem_def.mpr hl
  obtain ⟨hne, heq⟩ := List.mem_getLast?_eq_getLast hx
  exact heq ▸ List.getLast_mem hne

/-- C5. join_workdir returns the argument itself when it is absolute; the
closest WorkDir variable joined with the argument minus its leading
current-directory component when the argument begins with one; and otherwise
the root frame's WorkDir joined with the argument. Whenever the root frame
carries a WorkDir and all WorkDir variables on the stack are absolute (as the
program guarantees), the result exists and is absolute in all three cases. -/
theorem join_workdir_spec (frames : List Frame) (p r : RPath)
    (hroot : root_workdir frames = some r)
    (habs : frames.all Frame.workdirAbs = true) :
    (p.abs = true → join_workdir frames p = some p) ∧
    (p.abs = false → p.startsWithDot = true →
      ∃ w, get_closest_workdir frames = some w ∧
        join_workdir frames p = some (w.join p.stripDot)) ∧
    (p.abs = false → p.startsWithDot = false →
      join_workdir frames p = some (r.join p)) ∧
    (∀ q, join_workdir frames p = some q → q.abs = true) := by
  refine ⟨?_, ?_, ?_, ?_⟩
  · intro hp
    simp [join_workdir, RPath.is_absolute, hp]
  · intro hp hdot
    have hne : frames.getLast?.isSome := by
      unfold root_workdir at hroot
      cases hl : frames.getLast? with
      | none => rw [hl] at hroot; cases hroot
      | some f => simp
    obtain ⟨f, hl⟩ := Option.isSome_iff_exists.mp hne
    have hf : f.workdir.isSome := by
      unfold root_workdir at hroot
      rw [hl] at hroot
      replace hroot : f.workdir = some r := hroot
      simp [hroot]
    obtain ⟨w0, hw0⟩ := Option.isSome_iff_exists.mp hf
    obtain ⟨v, hv⟩ :=
      findSome?_workdir_isSome frames f w0 (root_mem_frames frames f hl) hw0
    refine ⟨v, hv, ?_⟩
    simp [join_workdir, RPath.is_absolute, hp, hdot, hv]
  · intro hp hdot
    simp [join_workdir, RPath.is_absolute, hp, hdot, hroot]
  · intro q hq
    unfold join_workdir at hq
    by_cases hp : p.is_absolute = true
    · rw [if_pos hp] at hq
      cases hq
      exact hp
    · rw [if_neg hp] at hq
      by_cases hdot : p.startsWithDot = true
      · rw [if_pos hdot] at hq
        cases hw : get_closest_workdir frames with
        | none => rw [hw] at hq; cases hq
        | some w =>
          rw [hw] at hq
          simp only [Option.map_some'] at hq
          have hwabs := closest_workdir_abs frames w habs hw
          obtain rfl := Option.some.inj hq
          simp [RPath.join, RPath.stripDot, hwabs]
      · rw [if_neg hdot] at hq
        rw [hroot] at hq
        simp only [Option.map_some'] at hq
        have hrabs := root_workdir_abs frames r habs hroot
        obtain rfl := Option.some.inj hq
        unfold RPath.join
        by_cases hpa : p.abs = true
        · simp [RPath.is_absolute] at hp
          rw [hp] at hpa; cases hpa
        · simp only [hpa, if_neg]
          simpa using hrabs

/-- C5 witness: a two-frame stack whose root carries an absolute WorkDir, and
a relative path with a leading current-directory component. -/
theorem join_workdir_spec_witness :
    root_workdir [Frame.mk none none, Frame.mk (some ⟨true, [PathComp.normal "cfg"]⟩) none]
      = some ⟨true, [PathComp.normal "cfg"]⟩ ∧
    join_workdir [Frame.mk none none, Frame.mk (some ⟨true, [PathComp.normal "cfg"]⟩) none]
      ⟨false, [PathComp.curDir, PathComp.normal "x"]⟩
      = some (RPath.join ⟨true, [PathComp.normal "cfg"]⟩
          (RPath.stripDot ⟨false, [PathComp.curDir, PathComp.normal "x"]⟩)) := by
  refine ⟨by decide, ?_⟩
  obtain ⟨w, hw, hj⟩ :=
    (join_workdir_spec
      [Frame.mk none none, Frame.mk (some ⟨true, [PathComp.normal "cfg"]⟩) none]
      ⟨false, [PathComp.curDir, PathComp.normal "x"]⟩
      ⟨true, [PathComp.normal "cfg"]⟩
      (by decide) (by decide)).2.1 (by decide) (by decide)
  have hwv : w = ⟨true, [PathComp.normal "cfg"]⟩ := by
    have : get_closest_workdir
        [Frame.mk none none, Frame.mk (some ⟨true, [PathComp.normal "cfg"]⟩) none]
        = some ⟨true, [PathComp.normal "cfg"]⟩ := by decide
    rw [this] at hw
    exact (Option.some.inj hw).symm
  rw [hwv] at hj
  exact hj

/-! ## Running operations (src/op/mod.rs) -/

/-- A value carried on the outcome channel: Result<Outcome> in the source,
with errors identified by their message. -/
inductive OpResult
  | ok (o : Outcome)
  | err (msg : String)
deriving DecidableEq

/-- A single outcome channel, recording the values currently buffered and the
total number of values ever sent over it. -/
structure OutChannel where
  msgs : List OpResult
  sendCount : Nat
deriving DecidableEq

/-- A fresh channel, as created by crossbeam_channel::bounded(1). -/
def OutChannel.empty : OutChannel := ⟨[], 0⟩

/-- Sending buffers the value and bumps the total send count. -/
def OutChannel.send (c : OutChannel) (r : OpResult) : OutChannel :=
  ⟨c.msgs ++ [r], c.sendCount + 1⟩

/-- Receiving pops the oldest buffered value (with nothing buffered the Rust
recv would block, modelled as none); nothing is sent by receiving. -/
def OutChannel.recv (c : OutChannel) : Option OpResult × OutChannel :=
  match c.msgs with
  | [] => (none, c)
  | m :: rest => (some m, ⟨rest, c.sendCount⟩)

/-- A RunningOperation handle (src/op/mod.rs lines 94-97): whether the cancel
sender is still present, and the outcome channel. -/
structure RunningOperation where
  has_cancel : Bool
  outcome : OutChannel
deriving DecidableEq

/-- Embeds RunningOperation::start (src/op/mod.rs lines 100-119), observed
after the worker thread has run: the spawned worker computes the closure's
single result and then performs the one send at the very end of the thread
body; the handle keeps the cancel sender. -/
def RunningOperation.start (result : OpResult) : RunningOperation :=
  ⟨true, OutChannel.empty.send result⟩

/-- Embeds RunningOperation::finished (src/op/mod.rs lines 121-129): exactly
one outcome is sent into the fresh channel before the handle is returned, and
no cancel sender exists. -/
def RunningOperation.finished (o : Outcome) : RunningOperation :=
  ⟨false, OutChannel.empty.send (OpResult.ok o)⟩

/-- Embeds RunningOperation::cancel (src/op/mod.rs lines 145-156): when the
cancel sender is present the cancel signal is sent and the outcome channel is
drained by one recv; nothing is ever sent on the outcome channel. -/
def RunningOperation.cancel (h : RunningOperation) : RunningOperation :=
  if h.has_cancel then ⟨h.has_cancel, (h.outcome.recv).2⟩ else h

/-- C6. Every RunningOperation sends exactly one value on its outcome channel
over its whole lifetime: a started handle's worker sends its single result
once at worker end, a handle created already-finished holds exactly one
pre-sent outcome, and cancelling (which only signals and drains) never adds a
send on the outcome channel. -/
theorem running_operation_exactly_one_send (result : OpResult) (o : Outcome) :
    (RunningOperation.start result).outcome.sendCount = 1 ∧
    (RunningOperation.start result).outcome.msgs = [result] ∧
    (RunningOperation.finished o).outcome.sendCount = 1 ∧
    (RunningOperation.finished o).outcome.msgs = [OpResult.ok o] ∧
    (RunningOperation.start result).cancel.outcome.sendCount = 1 ∧
    (RunningOperation.finished o).cancel.outcome.sendCount = 1 :=
  ⟨rfl, rfl, rfl, rfl, rfl, rfl⟩

/-! ## Reload (src/op/http.rs) -/

/-- Embeds Context::get_closest_var for Reloader (src/context.rs lines
108-110): the first frame, from the top, holding the variable. -/
def get_closest_reloader (frames : List Frame) : Option Nat :=
  frames.findSome? Frame.reloader

/-- The message of the bail in Reload::start (src/op/http.rs lines 145-148);
the spec's error taxonomy calls this error kind NoReloaderInScope. The
source message quotes the reload keyword in backquotes, omitted here. -/
def noReloaderMsg : String :=
  "reload operation started, but no HTTP server registered in this context or any of its parents"

/-- Embeds Reload::start (src/op/http.rs lines 138-151). The first component
lists the reload signals sent, tagged by the reloader channel they were sent
on; the second component is the returned Result. -/
def Reload_start (frames : List Frame) : List Nat × Except String RunningOperation :=
  match get_closest_reloader frames with
  | some r => ([r], Except.ok (RunningOperation.finished Outcome.Success))
  | none => ([], Except.error noReloaderMsg)

lemma get_closest_reloader_append (pre post : List Frame) (f : Frame) (r : Nat)
    (hpre : pre.all (fun g => g.reloader.isNone) = true)
    (hf : f.reloader = some r) :
    get_closest_reloader (pre ++ f :: post) = some r := by
  induction pre with
  | nil =>
    simp only [List.nil_append]
    unfold get_closest_reloader
    rw [List.findSome?_cons_of_isSome]
    · exact hf
    · rw [hf]; rfl
  | cons g rest ih =>
    have hg : g.reloader.isNone := (List.all_eq_true.mp hpre) g (List.mem_cons_self g rest)
    have hrest : rest.all (fun g => g.reloader.isNone) = true := by
      rw [List.all_eq_true]
      intro x hx
      exact (List.all_eq_true.mp hpre) x (List.mem_cons_of_mem g hx)
    unfold get_closest_reloader
    rw [List.cons_append, List.findSome?_cons_of_isNone _ hg]
    exact ih hrest

/-- C7. Starting a Reload operation looks up the closest Reloader variable on
the frame stack: with one in scope (here: the top frames hold none and frame
f holds reloader r) exactly one reload signal is sent on that closest
channel and the returned RunningOperation is already finished with a pre-sent
Success outcome; with none in scope the operation fails with the
no-reloader-in-scope error and no signal is sent. -/
theorem reload_start_spec (pre post : List Frame) (f : Frame) (r : Nat)
    (hpre : pre.all (fun g => g.reloader.isNone) = true)
    (hf : f.reloader = some r) :
    Reload_start (pre ++ f :: post)
      = ([r], Except.ok (RunningOperation.finished Outcome.Success)) ∧
    (RunningOperation.finished Outcome.Success).outcome.msgs
      = [OpResult.ok Outcome.Success] ∧
    ∀ frames, get_closest_reloader frames = none →
      Reload_start frames = ([], Except.error noReloaderMsg) := by
  refine ⟨?_, rfl, ?_⟩
  · unfold Reload_start
    rw [get_closest_reloader_append pre post f r hpre hf]
  · intro frames h
    unfold Reload_start
    rw [h]

/-- C7 witness: one reloader-free frame above a frame holding reloader 7. -/
theorem reload_start_spec_witness :
    [Frame.mk none none].all (fun g => g.reloader.isNone) = true ∧
    Reload_start ([Frame.mk none none] ++ Frame.mk none (some 7) :: [])
      = ([7], Except.ok (RunningOperation.finished Outcome.Success)) :=
  ⟨by decide,
   (reload_start_spec [Frame.mk none none] [] (Frame.mk none (some 7)) 7
     (by decide) (by decide)).1⟩

/-! ## Watch executor (src/op/watch.rs) -/

/-- The decisive observation of the busy-wait loop in run_operations
(src/op/watch.rs lines 214-232) for one started operation: either some
recv_timeout expires and try_finish reports the operation done with an
outcome, or a filesystem event arrives first, or the event channel
disconnects first. Busy-wait iterations whose timeout fires while try_finish
reports not-done change no state and are therefore not represented. Start
errors of the operations are outside the modelled behaviour. -/
inductive OpObs
  | finishes (o : Outcome)
  | event
  | disconnect

/-- Actions of one run_operations pass, tagged by operation index. -/
inductive WAction
  | started (i : Nat)
  | cancelled (i : Nat)
deriving DecidableEq

/-- The states the executor state machine can enter after a run_operations
pass (src/op/watch.rs lines 185-191, 223 and 235); the absent value models
the Ok(None) return on disconnect. -/
inductive WState
  | Debouncing
  | WaitingForChange
deriving DecidableEq

/-- Embeds the loop body of run_operations (src/op/watch.rs lines 205-236)
from operation index i on: each operation of the run list is started in
order; an incoming event cancels the running operation and ends the pass in
Debouncing; a finished operation - whatever its outcome, which the code
discards - is followed by starting the next one; a disconnect ends the whole
executor. -/
def run_operations_from (i : Nat) : List OpObs → List WAction × Option WState
  | [] => ([], some WState.WaitingForChange)
  | b :: rest =>
    match b with
    | OpObs.event =>
      ([WAction.started i, WAction.cancelled i], some WState.Debouncing)
    | OpObs.disconnect => ([WAction.started i], none)
    | OpObs.finishes _ =>
      let t := run_operations_from (i + 1) rest
      (WAction.started i :: t.1, t.2)

/-- Embeds run_operations over the whole run list. -/
def run_operations (ops : List OpObs) : List WAction × Option WState :=
  run_operations_from 0 ops

/-- Whether the observation is a completed operation. -/
def OpObs.isFinishes : OpObs → Bool
  | OpObs.finishes _ => true
  | _ => false

/-- C1 counterexample. In a run list of two operations whose first finishes
with the non-success outcome Failure, the code still starts the second
operation in the same pass and ends the pass normally: the first non-success
outcome does not stop the pipeline. -/
theorem watch_starts_next_after_failure :
    run_operations [OpObs.finishes Outcome.Failure, OpObs.finishes Outcome.Success]
      = ([WAction.started 0, WAction.started 1], some WState.WaitingForChange) ∧
    WAction.started 1 ∈
      (run_operations [OpObs.finishes Outcome.Failure,
        OpObs.finishes Outcome.Success]).1 := by
  exact ⟨rfl, by decide⟩

lemma run_operations_from_all_finish (pre rest : List OpObs) (i : Nat)
    (h : pre.all OpObs.isFinishes = true) :
    run_operations_from i (pre ++ rest)
      = ((List.range' i pre.length).map WAction.started
          ++ (run_operations_from (i + pre.length) rest).1,
         (run_operations_from (i + pre.length) rest).2) := by
  induction pre generalizing i with
  | nil => simp
  | cons b pre' ih =>
    have hb : b.isFinishes = true :=
      (List.all_eq_true.mp h) b (List.mem_cons_self b pre')
    have hpre' : pre'.all OpObs.isFinishes = true := by
      rw [List.all_eq_true]
      intro x hx
      exact (List.all_eq_true.mp h) x (List.mem_cons_of_mem b hx)
    cases b with
    | event => cases hb
    | disconnect => cases hb
    | finishes o =>
      show (WAction.started i :: (run_operations_from (i + 1) (pre' ++ rest)).1,
            (run_operations_from (i + 1) (pre' ++ rest)).2) = _
      rw [ih (i + 1) hpre']
      have hlen : i + (pre'.length + 1) = i + 1 + pre'.length := by omega
      simp [List.range'_succ, List.length_cons, hlen]

/-- C1 amended. The run list is executed sequentially; after an operation
finishes - whatever its outcome, success or not - the next operation is
started, so a pass whose operations all complete starts every operation and
ends in WaitingForChange; only a filesystem event stops the pass early, by
cancelling the running operation and entering Debouncing without starting any
later operation; in neither case does the enclosing Watch fail because of an
operation's outcome. -/
theorem watch_run_operations_amended (ops pre rest : List OpObs)
    (hops : ops.all OpObs.isFinishes = true)
    (hpre : pre.all OpObs.isFinishes = true) :
    run_operations ops
      = ((List.range ops.length).map WAction.started, some WState.WaitingForChange) ∧
    run_operations (pre ++ OpObs.event :: rest)
      = ((List.range pre.length).map WAction.started
          ++ [WAction.started pre.length, WAction.cancelled pre.length],
         some WState.Debouncing) := by
  constructor
  · have h := run_operations_from_all_finish ops [] 0 hops
    rw [List.append_nil] at h
    unfold run_operations
    rw [h, List.range_eq_range']
    simp [run_operations_from]
  · have h := run_operations_from_all_finish pre (OpObs.event :: rest) 0 hpre
    unfold run_operations
    rw [h, List.range_eq_range']
    simp [run_operations_from]

/-- C1 amended witness: a pass of two completing operations, the first of
which fails, starts both and ends waiting for a change. -/
theorem watch_run_operations_amended_witness :
    [OpObs.finishes Outcome.Failure, OpObs.finishes Outcome.Cancelled].all
      OpObs.isFinishes = true ∧
    run_operations [OpObs.finishes Outcome.Failure, OpObs.finishes Outcome.Cancelled]
      = ([WAction.started 0, WAction.started 1], some WState.WaitingForChange) := by
  refine ⟨by decide, ?_⟩
  have h := (watch_run_operations_amended
    [OpObs.finishes Outcome.Failure, OpObs.finishes Outcome.Cancelled]
    [] [] (by decide) (by decide)).1
  simpa using h

/-! ## Concurrently (src/op/concurrently.rs) -/

/-- Modelled from the spec: Outcome::is_failure is used by
RunningConcurrently::finish and try_finish (src/op/concurrently.rs lines 56
and 67) but its definition is not among the sources of that revision
(src/op/mod.rs defines is_success only); per the spec's outcome model,
Failure is the only failing outcome. -/
def Outcome.is_failure : Outcome → Bool
  | Outcome.Failure => true
  | _ => false

/-- Child-facing actions of RunningConcurrently, tagged by child index:
awaiting a child to completion, or cancelling it. -/
inductive CAction
  | finish (i : Nat)
  | cancelChild (i : Nat)
deriving DecidableEq

/-- Embeds the loop of RunningConcurrently::finish (src/op/concurrently.rs
lines 53-59) from child index i with failure accumulator anyf: every child is
awaited to completion in order, its outcome ORed into any_failure, and the
aggregate decides the emitted outcome. The child list carries each child's
eventual outcome; child errors are not modelled. -/
def concurrently_finish_from (i : Nat) (anyf : Bool) :
    List Outcome → List CAction × Outcome
  | [] => ([], if anyf then Outcome.Failure else Outcome.Success)
  | o :: rest =>
    let t := concurrently_finish_from (i + 1) (anyf || o.is_failure) rest
    (CAction.finish i :: t.1, t.2)

/-- Embeds RunningConcurrently::finish with the initial any_failure = false
set by Concurrently::start (src/op/concurrently.rs line 43). -/
def concurrently_finish (children : List Outcome) : List CAction × Outcome :=
  concurrently_finish_from 0 false children

/-- Written from the claim, for comparison: await children in order until the
first non-Success outcome, then cancel every remaining child and emit that
same outcome; only when all children succeed emit Success. -/
def concurrently_claimed_from (i : Nat) : List Outcome → List CAction × Outcome
  | [] => ([], Outcome.Success)
  | o :: rest =>
    if o = Outcome.Success then
      let t := concurrently_claimed_from (i + 1) rest
      (CAction.finish i :: t.1, t.2)
    else
      (CAction.finish i :: (List.range' (i + 1) rest.length).map CAction.cancelChild, o)

/-- The claimed behaviour over a whole child list. -/
def concurrently_claimed (children : List Outcome) : List CAction × Outcome :=
  concurrently_claimed_from 0 children

/-- C2 counterexample. With children [Failure, Success] the code awaits the
second child to completion instead of cancelling it on the first non-success
outcome: finish produces the actions [finish 0, finish 1] where the claim
demands [finish 0, cancelChild 1]. -/
theorem concurrently_awaits_instead_of_cancelling :
    concurrently_finish [Outcome.Failure, Outcome.Success]
      = ([CAction.finish 0, CAction.finish 1], Outcome.Failure) ∧
    concurrently_claimed [Outcome.Failure, Outcome.Success]
      = ([CAction.finish 0, CAction.cancelChild 1], Outcome.Failure) ∧
    concurrently_finish [Outcome.Failure, Outcome.Success]
      ≠ concurrently_claimed [Outcome.Failure, Outcome.Success] := by decide

lemma concurrently_finish_from_eq (l : List Outcome) (i : Nat) (anyf : Bool) :
    concurrently_finish_from i anyf l
      = ((List.range' i l.length).map CAction.finish,
         if anyf || l.any Outcome.is_failure then Outcome.Failure
         else Outcome.Success) := by
  induction l generalizing i anyf with
  | nil => simp [concurrently_finish_from]
  | cons o rest ih =>
    show (CAction.finish i :: (concurrently_finish_from (i + 1) (anyf || o.is_failure) rest).1,
          (concurrently_finish_from (i + 1) (anyf || o.is_failure) rest).2) = _
    rw [ih (i + 1)]
    simp [List.range'_succ, Bool.or_assoc]

/-- C2 amended. RunningConcurrently::finish awaits every child sequentially
to completion and never cancels one; it emits Failure exactly when at least
one child's outcome is a failure and Success otherwise - so a non-success
child outcome neither cancels the remaining children nor short-circuits the
wait. -/
theorem concurrently_finish_awaits_all (children : List Outcome) :
    concurrently_finish children
      = ((List.range children.length).map CAction.finish,
         if children.any Outcome.is_failure then Outcome.Failure
         else Outcome.Success) := by
  unfold concurrently_finish
  rw [concurrently_finish_from_eq, List.range_eq_range']
  simp

/-! ## Proxy readiness wait and reload fan-out (src/http.rs) -/

/-- The poll period of wait_until_socket_open, in milliseconds (src/http.rs
line 303). -/
def POLL_PERIOD_MS : Nat := 20

/-- The overall timeout of wait_until_socket_open, in milliseconds
(src/http.rs line 304). -/
def PORT_WAIT_TIMEOUT_MS : Nat := 30000

/-- Embeds the loop of wait_until_socket_open (src/http.rs lines 302-321)
counted in attempts: reach k tells whether the k-th TcpStream::connect
attempt succeeds within its poll-period timeout. A failing iteration
consumes one full poll period (the connect timeout followed by a sleep for
the period's remainder), so the elapsed time before attempt k is k times the
poll period and the loop guard elapsed below the overall timeout admits
exactly timeout-divided-by-period attempts, the remaining fuel here. -/
def wait_from (reach : Nat → Bool) : Nat → Nat → Bool
  | _, 0 => false
  | k, fuel + 1 => if reach k then true else wait_from reach (k + 1) fuel

/-- Embeds wait_until_socket_open over the attempt budget. -/
def wait_until_socket_open (reach : Nat → Bool) : Bool :=
  wait_from reach 0 (PORT_WAIT_TIMEOUT_MS / POLL_PERIOD_MS)

/-- Events surfaced by the dev server (src/http.rs, enum Event, lines 66-79)
plus a Warning constructor so that the claimed warning emission is
expressible; the source enum has no such variant and the embedded code never
produces it (the timeout path is a bare continue with a TODO comment at
src/http.rs line 318). -/
inductive HttpEvent
  | MainServerStarted
  | ControlServerStarted
  | Reload
  | Warning
deriving DecidableEq

/-- Embeds one iteration of the reload-request loop in run_ws_server
(src/http.rs lines 259-277): in proxy mode the upstream is polled first and
an unreachable upstream skips the whole reload, leaving the session list
untouched; after a successful wait (or in file-server mode) the Reload
callback fires and the session list is cleared, which closes the WebSocket
connections. Sessions are identified by numbers. -/
def handle_reload (proxy_target : Option Nat) (reach : Nat → Bool)
    (sessions : List Nat) : List HttpEvent × List Nat :=
  match proxy_target with
  | some _ =>
    if wait_until_socket_open reach then ([HttpEvent.Reload], []) else ([], sessions)
  | none => ([HttpEvent.Reload], [])

lemma wait_from_true_iff (reach : Nat → Bool) (fuel start : Nat) :
    wait_from reach start fuel = true ↔
      ∃ j, j < fuel ∧ reach (start + j) = true := by
  induction fuel generalizing start with
  | zero => simp [wait_from]
  | succ n ih =>
    show (if reach start then true else wait_from reach (start + 1) n) = true ↔ _
    by_cases hr : reach start = true
    · rw [if_pos hr]
      constructor
      · intro _
        exact ⟨0, Nat.succ_pos n, by simpa using hr⟩
      · intro _
        rfl
    · rw [if_neg hr]
      rw [ih (start + 1)]
      constructor
      · rintro ⟨j, hj, hrj⟩
        refine ⟨j + 1, by omega, ?_⟩
        have harr : start + (j + 1) = start + 1 + j := by omega
        rwa [harr]
      · rintro ⟨j, hj, hrj⟩
        cases j with
        | zero => exact absurd (by simpa using hrj) hr
        | succ j' =>
          refine ⟨j', by omega, ?_⟩
          have harr : start + 1 + j' = start + (j' + 1) := by omega
          rwa [harr]

/-- A connect oracle under which the proxy target is never reachable. -/
def neverReach : Nat → Bool := fun _ => false

/-- C8 counterexample. With the upstream unreachable for the whole 30 second
budget, the reload request is skipped and the sessions stay open, but no
warning (indeed no event at all) is emitted: the events component is empty. -/
theorem http_reload_timeout_no_warning :
    handle_reload (some 9000) neverReach [7] = ([], [7]) ∧
    HttpEvent.Warning ∉ (handle_reload (some 9000) neverReach [7]).1 := by
  have hw : wait_until_socket_open neverReach = false := by
    rw [Bool.eq_false_iff]
    intro hc
    obtain ⟨j, -, hrj⟩ := (wait_from_true_iff neverReach _ 0).mp hc
    cases hrj
  refine ⟨?_, ?_⟩ <;> simp [handle_reload, hw]

/-- C8 amended. In proxy mode a reload request never drops the WebSocket
session handles before the upstream accepts a TCP connection: the worker
polls the target once per 20ms period within the 30s budget (1500 attempts),
clears the session list only after a connect succeeds, and if the target
stays unreachable for the whole budget it skips that reload, leaving the
sessions open - without emitting any warning. -/
theorem http_reload_wait_spec (target : Nat) (reach : Nat → Bool)
    (sessions : List Nat) :
    (wait_until_socket_open reach = true →
      handle_reload (some target) reach sessions = ([HttpEvent.Reload], [])) ∧
    (wait_until_socket_open reach = false →
      handle_reload (some target) reach sessions = ([], sessions)) ∧
    (wait_until_socket_open reach = true ↔
      ∃ k, k < PORT_WAIT_TIMEOUT_MS / POLL_PERIOD_MS ∧ reach k = true) := by
  refine ⟨?_, ?_, ?_⟩
  · intro h
    simp [handle_reload, h]
  · intro h
    simp [handle_reload, h]
  · rw [wait_until_socket_open, wait_from_true_iff]
    simp

/-- A connect oracle under which the fourth connect attempt succeeds. -/
def reachAtThree : Nat → Bool := fun k => k == 3

/-- C8 witness: with the target reachable at the fourth attempt the wait
succeeds and the reload clears the session list. -/
theorem http_reload_wait_spec_witness :
    wait_until_socket_open reachAtThree = true ∧
    handle_reload (some 9000) reachAtThree [5] = ([HttpEvent.Reload], []) :=
  ⟨by decide, (http_reload_wait_spec 9000 reachAtThree [5]).1 (by decide)⟩

/-! ## Command supervision (src/op/command.rs) -/

/-- Exit status of the child process (std ExitStatus): a normal exit code or
termination by signal; success is true exactly for exit code 0. -/
inductive ExitStatus
  | exited (code : Nat)
  | signaled (sig : Nat)
deriving DecidableEq

/-- ExitStatus::success: exit code 0 and nothing else. -/
def ExitStatus.success : ExitStatus → Bool
  | ExitStatus.exited 0 => true
  | _ => false

/-- One try_recv poll of the cancel channel (crossbeam TryRecvError): a
cancel signal, an empty channel, or a disconnected channel. -/
inductive CancelPoll
  | ready
  | empty
  | disconnected
deriving DecidableEq

/-- What the supervisor observes on one wake: the child's try_wait result
and the state of the cancel channel. -/
structure Wake where
  status : Option ExitStatus
  cancel : CancelPoll
deriving DecidableEq

/-- What the supervision loop returns: an outcome, or an error (the
disconnected-cancel-channel error; try_wait and kill I/O errors are not
modelled separately). -/
inductive CmdResult
  | outcome (o : Outcome)
  | err
deriving DecidableEq

/-- Initial sleep duration of the supervision loop, in microseconds
(src/op/command.rs line 169). -/
def START_SLEEP_US : Nat := 100

/-- Maximal sleep duration of the supervision loop, in microseconds
(src/op/command.rs line 170). -/
def MAX_SLEEP_US : Nat := 20000

/-- Embeds the supervision loop of Command::start (src/op/command.rs lines
172-203) with current sleep duration d in microseconds, over a list of
wakes. Each iteration sleeps, then checks whether the child exited, then
polls the cancel channel (killing the child on a received cancel), then
doubles the sleep duration up to the cap. Returns the sleep durations used
(one before each wake), whether the child was killed, and the decision if
the loop decided within the given wakes. -/
def supervise_from (d : Nat) : List Wake → List Nat × Bool × Option CmdResult
  | [] => ([], false, none)
  | w :: rest =>
    match w.status with
    | some st =>
      ([d], false,
        some (CmdResult.outcome (if st.success then Outcome.Success else Outcome.Failure)))
    | none =>
      match w.cancel with
      | CancelPoll.ready => ([d], true, some (CmdResult.outcome Outcome.Cancelled))
      | CancelPoll.disconnected => ([d], false, some CmdResult.err)
      | CancelPoll.empty =>
        let t := supervise_from (min (d * 2) MAX_SLEEP_US) rest
        (d :: t.1, t.2.1, t.2.2)

/-- Embeds the whole supervision loop, beginning at the start duration. -/
def supervise (wakes : List Wake) : List Nat × Bool × Option CmdResult :=
  supervise_from START_SLEEP_US wakes

/-- Written from the claim: the sleep duration before the i-th wake starts
at 100 microseconds, doubles every iteration and is capped at 20
milliseconds. -/
def sleep_at (i : Nat) : Nat := min (START_SLEEP_US * 2 ^ i) MAX_SLEEP_US

/-- Written from the claim: what a single wake decides - child exited maps
to Success exactly for exit status 0 and to Failure for any other status;
a received cancel kills the child and yields Cancelled; a disconnected
cancel channel is an error; otherwise the loop continues. The second
component tells whether the child is killed. -/
def wake_decision (w : Wake) : Option (CmdResult × Bool) :=
  match w.status with
  | some st =>
    some (CmdResult.outcome (if st.success then Outcome.Success else Outcome.Failure), false)
  | none =>
    match w.cancel with
    | CancelPoll.ready => some (CmdResult.outcome Outcome.Cancelled, true)
    | CancelPoll.disconnected => some (CmdResult.err, false)
    | CancelPoll.empty => none

/-- Written from the claim: sleep the prescribed closed-form duration before
each wake and stop at the first decisive wake with its decision. -/
def supervise_claimed_from (i : Nat) : List Wake → List Nat × Bool × Option CmdResult
  | [] => ([], false, none)
  | w :: rest =>
    match wake_decision w with
    | some (r, killed) => ([sleep_at i], killed, some r)
    | none =>
      let t := supervise_claimed_from (i + 1) rest
      (sleep_at i :: t.1, t.2.1, t.2.2)

/-- The claimed supervision behaviour over a whole wake list. -/
def supervise_claimed (wakes : List Wake) : List Nat × Bool × Option CmdResult :=
  supervise_claimed_from 0 wakes

lemma sleep_at_succ (i : Nat) : min (sleep_at i * 2) MAX_SLEEP_US = sleep_at (i + 1) := by
  unfold sleep_at
  rw [pow_succ, ← Nat.mul_assoc]
  omega

lemma supervise_from_eq_claimed (wakes : List Wake) (i : Nat) :
    supervise_from (sleep_at i) wakes = supervise_claimed_from i wakes := by
  induction wakes generalizing i with
  | nil => rfl
  | cons w rest ih =>
    obtain ⟨ws, wc⟩ := w
    cases ws with
    | some st => rfl
    | none =>
      cases wc with
      | ready => rfl
      | disconnected => rfl
      | empty =>
        show (sleep_at i :: (supervise_from (min (sleep_at i * 2) MAX_SLEEP_US) rest).1,
              (supervise_from (min (sleep_at i * 2) MAX_SLEEP_US) rest).2.1,
              (supervise_from (min (sleep_at i * 2) MAX_SLEEP_US) rest).2.2)
            = (sleep_at i :: (supervise_claimed_from (i + 1) rest).1,
              (supervise_claimed_from (i + 1) rest).2.1,
              (supervise_claimed_from (i + 1) rest).2.2)
        rw [sleep_at_succ, ih (i + 1)]

lemma supervise_claimed_from_sleeps (wakes : List Wake) (i : Nat) :
    (supervise_claimed_from i wakes).1
      = (List.range' i (supervise_claimed_from i wakes).1.length).map sleep_at := by
  induction wakes generalizing i with
  | nil => rfl
  | cons w rest ih =>
    cases hd : wake_decision w with
    | some p =>
      simp [supervise_claimed_from, hd]
    | none =>
      simp only [supervise_claimed_from, hd]
      rw [List.length_cons, List.range'_succ, List.map_cons]
      exact congrArg (fun l => sleep_at i :: l) (ih (i + 1))

/-- C9. The supervision loop sleeps before each poll with the closed-form
duration starting at 100 microseconds, doubling every iteration and capped
at 20 milliseconds, and stops at the first decisive wake: a child exit maps
to Success exactly for exit status 0 and Failure for any other status, and a
received cancel kills the child and yields Cancelled - the code's
accumulator-doubling loop coincides with this claimed behaviour. -/
theorem command_supervise_spec (wakes : List Wake) :
    supervise wakes = supervise_claimed wakes ∧
    (supervise wakes).1 = (List.range (supervise wakes).1.length).map sleep_at := by
  have h0 : START_SLEEP_US = sleep_at 0 := by decide
  have h1 : supervise wakes = supervise_claimed wakes := by
    unfold supervise supervise_claimed
    rw [h0]
    exact supervise_from_eq_claimed wakes 0
  refine ⟨h1, ?_⟩
  rw [h1]
  unfold supervise_claimed
  rw [List.range_eq_range']
  exact supervise_claimed_from_sleeps wakes 0

/-! ## Command spawn failure (src/op/command.rs) -/

/-- The io::Error kind distinction Command::start makes for spawn errors
(src/op/command.rs line 141): the not-found kind gets an extra hint. -/
inductive SpawnErrorKind
  | notFound
  | other
deriving DecidableEq

/-- Embeds the error context built for a failed spawn (src/op/command.rs
lines 140-147): the failed-to-spawn message naming the command, plus the
missing-command hint naming the program for the not-found kind. The
backquote and apostrophe characters of the source format strings are not
reproduced. -/
def spawn_error_context (display program : String) (k : SpawnErrorKind) : String :=
  "failed to spawn " ++ display ++
    (match k with
     | SpawnErrorKind.notFound =>
       " (you probably do not have the command " ++ program ++ " installed)"
     | SpawnErrorKind.other => "")

/-- Embeds the spawn branch of Command::start (src/op/command.rs lines
136-206): a spawn error returns the contextualized error synchronously,
before any RunningOperation is created or any supervisor worker spawned; a
successful spawn creates the worker whose single send will be its
supervision result. display is the rendered command, program its first
word, workerResult the result the supervision closure eventually computes. -/
def Command_start (spawn_result : Except SpawnErrorKind Unit)
    (display program : String) (workerResult : OpResult) :
    Except String RunningOperation :=
  match spawn_result with
  | Except.error k => Except.error (spawn_error_context display program k)
  | Except.ok _ => Except.ok (RunningOperation.start workerResult)

/-- Total number of values ever sent on the outcome channel of the operation
a Command::start call gave rise to; a returned error has no channel at all. -/
def outcome_sends : Except String RunningOperation → Nat
  | Except.error _ => 0
  | Except.ok h => h.outcome.sendCount

/-- C10. When spawning the child fails, Command::start returns the
contextualized error synchronously: no RunningOperation handle exists (the
result is never an ok handle) and nothing is ever emitted on any outcome
channel for the operation, while a started operation's worker emits exactly
one value - so a spawn failure is distinguishable from a started operation
that later fails. -/
theorem command_start_spawn_error (k : SpawnErrorKind)
    (display program : String) (wr : OpResult) :
    Command_start (Except.error k) display program wr
      = Except.error (spawn_error_context display program k) ∧
    outcome_sends (Command_start (Except.error k) display program wr) = 0 ∧
    (∀ h : RunningOperation,
      Command_start (Except.error k) display program wr ≠ Except.ok h) ∧
    outcome_sends (Command_start (Except.ok ()) display program wr) = 1 :=
  ⟨rfl, rfl, fun _ hc => Except.noConfusion hc, rfl⟩
